import Mathlib

/-!
Shallow embedding of the banking backend in `src/server.js`.

The server keeps two MongoDB collections: `User` (accounts) and
`Transaction` (the append-only ledger).  We model the database as a pair
of lists, JS numbers as rationals, MongoDB ObjectIds as strings, and
`Date.now` as a counter on the database state that advances each time a
record is stamped.  Each HTTP handler becomes a function from the
database state (plus the request fields, and explicit parameters for the
sources of nondeterminism the handler reads: the bcrypt hash function,
the freshly generated ObjectId, the value of `Math.random()`) to an
`Except` result paired with the post-state; the `catch` branches of the
handlers call `session.abortTransaction()`, so an `Except.error` result
is paired with the unchanged input state.
-/

namespace Bank

/-- Embedded transaction summary stored inline on a user document
(the `transactions` array of `userSchema`); the server never appends to
it after creation. -/
structure TxnSummary where
  type : String
  amount : ℚ
  date : ℕ
  balance : ℚ
  recipientName : String
  recipientAccount : String
  senderName : String
  senderAccount : String
  deriving Repr, DecidableEq

/-- A document of the `User` collection (`userSchema`). -/
structure User where
  id : String
  name : String
  email : String
  password : String
  accountNumber : Option String
  balance : ℚ
  transactions : List TxnSummary
  deriving Repr, DecidableEq

/-- A document of the `Transaction` collection (`transactionSchema`). -/
structure Transaction where
  userId : String
  type : String
  amount : ℚ
  balance : ℚ
  recipientId : Option String
  recipientName : Option String
  senderId : Option String
  senderName : Option String
  date : ℕ
  deriving Repr, DecidableEq

/-- The persistent state: the two collections, plus the current clock
value used for the `Date.now` default of `transactionSchema`. -/
structure DB where
  users : List User
  transactions : List Transaction
  now : ℕ
  deriving Repr, DecidableEq

/-- `User.findById(id)`. -/
def findById (db : DB) (id : String) : Option User :=
  db.users.find? (fun u => u.id == id)

/-- `User.findOne({ email })`. -/
def findByEmail (db : DB) (email : String) : Option User :=
  db.users.find? (fun u => u.email == email)

/-- `User.findOne({ accountNumber, name })`: the recipient lookup of the
transfer handler, matching on the conjunction of both fields. -/
def findRecipient (db : DB) (accountNumber name : String) : Option User :=
  db.users.find? (fun u => u.accountNumber == some accountNumber && u.name == name)

/-- `doc.save()` on a user document: writes the in-memory document back
over every stored document carrying its `_id`. -/
def saveUser (db : DB) (u : User) : DB :=
  { db with users := db.users.map (fun v => if v.id == u.id then u else v) }

/-- `new Transaction({...}).save()`: appends a ledger record stamped
with the current clock, then advances the clock. -/
def saveTransaction (db : DB) (t : Transaction) : DB :=
  { db with transactions := db.transactions ++ [{ t with date := db.now }],
            now := db.now + 1 }

/-- The `POST /api/transaction` handler (deposit / withdraw).  Success
returns the updated user and the new ledger record together with the
committed state; every `throw` lands in the `catch` branch, which aborts
the session, so the state is returned unchanged there. -/
def postTransaction (db : DB) (userId ty : String) (amount : ℚ) :
    Except String (User × Transaction) × DB :=
  match findById db userId with
  | none => (Except.error "User not found", db)
  | some user =>
    if ty = "withdraw" ∧ user.balance < amount then
      (Except.error "Insufficient balance", db)
    else
      let user' : User :=
        { user with balance := user.balance + (if ty = "deposit" then amount else -amount) }
      let db1 := saveUser db user'
      let txn : Transaction :=
        { userId := userId, type := ty, amount := amount, balance := user'.balance,
          recipientId := none, recipientName := none,
          senderId := none, senderName := none, date := db1.now }
      let db2 := saveTransaction db1 txn
      (Except.ok (user', txn), db2)

/-- The `POST /api/signup` handler.  `hashF` stands for
`bcrypt.hash(·, 10)` and `newId` for the ObjectId MongoDB generates for
the inserted document; both are inputs the handler reads from outside
the state.  On success the response body is only the message string. -/
def postSignup (hashF : String → String) (newId : String) (db : DB)
    (name email password : String) : Except String String × DB :=
  match findByEmail db email with
  | some _ => (Except.error "Email already registered", db)
  | none =>
    let user : User :=
      { id := newId, name := name, email := email, password := hashF password,
        accountNumber := none, balance := 0, transactions := [] }
    (Except.ok "User created successfully", { db with users := db.users ++ [user] })

/-- The `POST /api/signin` handler.  `checkF stored given` stands for
`bcrypt.compare(given, stored)`.  On success the response is the account
with the `password` field removed, modelled by blanking it to `none` in
a copy of the record; we return the copy as the pair of the user with
its credential dropped. -/
def postSignin (checkF : String → String → Bool) (db : DB)
    (email password : String) : Except String User × DB :=
  match findByEmail db email with
  | none => (Except.error "Invalid credentials", db)
  | some user =>
    if checkF user.password password then
      (Except.ok { user with password := "" }, db)
    else
      (Except.error "Invalid credentials", db)

/-- The account number computed by the `POST /api/generate-account`
handler from the value `r` of `Math.random()`:
`Math.floor(Math.random() * 9000000000) + 1000000000`. -/
def generatedNumber (r : ℚ) : ℤ :=
  ⌊r * 9000000000⌋ + 1000000000

/-- The `POST /api/generate-account` handler.
`User.findByIdAndUpdate(userId, { accountNumber }, { new: true })`
updates only the `accountNumber` field and yields the updated document;
when the id resolves to no document it yields `null` and reading
`user.accountNumber` throws, landing in the 500 branch. -/
def postGenerateAccount (r : ℚ) (db : DB) (userId : String) :
    Except String String × DB :=
  let accountNumber := generatedNumber r
  match findById db userId with
  | none => (Except.error "Error generating account number", db)
  | some user =>
    let user' : User := { user with accountNumber := some (toString accountNumber) }
    (Except.ok (toString accountNumber), saveUser db user')

/-- The `POST /api/transfer` handler.  Both documents are loaded before
either write; the sender copy is saved first, then the recipient copy,
then the two ledger records in that order.  Any `throw` aborts the
session, leaving the state unchanged. -/
def postTransfer (db : DB) (senderId recipientAccountNumber recipientName : String)
    (amount : ℚ) : Except String (User × Transaction) × DB :=
  match findById db senderId, findRecipient db recipientAccountNumber recipientName with
  | none, _ => (Except.error "Invalid sender or recipient", db)
  | some _, none => (Except.error "Invalid sender or recipient", db)
  | some sender, some recipient =>
    if sender.balance < amount then
      (Except.error "Insufficient balance", db)
    else
      let sender' : User := { sender with balance := sender.balance - amount }
      let recipient' : User := { recipient with balance := recipient.balance + amount }
      let db1 := saveUser db sender'
      let db2 := saveUser db1 recipient'
      let senderTransaction : Transaction :=
        { userId := sender.id, type := "transfer_sent", amount := amount,
          balance := sender'.balance, recipientId := some recipient.id,
          recipientName := some recipient.name, senderId := none, senderName := none,
          date := db2.now }
      let recipientTransaction : Transaction :=
        { userId := recipient.id, type := "transfer_received", amount := amount,
          balance := recipient'.balance, recipientId := none, recipientName := none,
          senderId := some sender.id, senderName := some sender.name,
          date := db2.now + 1 }
      let db3 := saveTransaction db2 senderTransaction
      let db4 := saveTransaction db3 recipientTransaction
      (Except.ok (sender', senderTransaction), db4)

/-- The descending-timestamp comparison used to model
`.sort({ date: -1 })`: `a` may come before `b` when `b`'s date is not
larger. -/
def dateGe (a b : Transaction) : Prop := b.date ≤ a.date

instance : DecidableRel dateGe := fun a b => Nat.decLe b.date a.date

instance : IsTotal Transaction dateGe := ⟨fun a b => Nat.le_total b.date a.date⟩

instance : IsTrans Transaction dateGe :=
  ⟨fun _ _ _ h1 h2 => Nat.le_trans h2 h1⟩

/-- The `GET /api/transactions/:userId` handler:
`Transaction.find({ userId }).sort({ date: -1 })`.  It performs no
writes, so it returns the state unchanged next to the record list. -/
def getTransactions (db : DB) (userId : String) : List Transaction × DB :=
  (List.insertionSort dateGe (db.transactions.filter (fun t => t.userId == userId)), db)

/-! ### Invariants from the spec -/

/-- Every stored balance is nonnegative. -/
def nonnegBalances (db : DB) : Prop :=
  ∀ u ∈ db.users, 0 ≤ u.balance

instance (db : DB) : Decidable (nonnegBalances db) :=
  List.decidableBAll _ _

/-- The most recently written ledger record owned by account `uid`
(record order in the list is write order). -/
def lastTxnFor (db : DB) (uid : String) : Option Transaction :=
  (db.transactions.filter (fun t => t.userId == uid)).getLast?

/-- The stored balance of user `u` agrees with its most recently
written ledger record, when one exists. -/
def matchesLast (db : DB) (u : User) : Bool :=
  (lastTxnFor db u.id).all (fun t => t.balance == u.balance)

/-- Spec invariant: every account's stored balance equals the balance
snapshot on its most recently written ledger record (once one exists). -/
def balanceMatchesLedger (db : DB) : Prop :=
  ∀ u ∈ db.users, matchesLast db u = true

instance (db : DB) : Decidable (balanceMatchesLedger db) :=
  List.decidableBAll _ _

/-! ### Helper lemmas about the store operations -/

lemma mem_saveUser {db : DB} {u v : User} (hv : v ∈ (saveUser db u).users) :
    v = u ∨ (v ∈ db.users ∧ v.id ≠ u.id) := by
  simp only [saveUser, List.mem_map] at hv
  obtain ⟨w, hw, he⟩ := hv
  by_cases h : w.id = u.id
  · left
    have : (w.id == u.id) = true := by simp [h]
    rw [this] at he
    simpa using he.symm
  · right
    have : (w.id == u.id) = false := by simp [h]
    rw [this] at he
    simp only [Bool.false_eq_true, if_false] at he
    exact he ▸ ⟨hw, h⟩

lemma find?_update_same (l : List User) (u : User) (i : String) (h : u.id = i) :
    (l.map (fun v => if v.id == u.id then u else v)).find? (fun v => v.id == i)
      = (l.find? (fun v => v.id == i)).map (fun _ => u) := by
  rw [List.find?_map]
  have hpred : ((fun v : User => v.id == i) ∘ fun v => if v.id == u.id then u else v)
      = fun v : User => v.id == i := by
    funext v
    by_cases hv : v.id = u.id
    · simp [hv, h]
    · simp [hv]
  rw [hpred]
  cases hfind : l.find? (fun v => v.id == i) with
  | none => rfl
  | some w =>
    have hw : w.id = i := by simpa using List.find?_some hfind
    have : (w.id == u.id) = true := by simp [hw, h]
    simp [Option.map, this]

lemma find?_update_other (l : List User) (u : User) (i : String) (h : u.id ≠ i) :
    (l.map (fun v => if v.id == u.id then u else v)).find? (fun v => v.id == i)
      = l.find? (fun v => v.id == i) := by
  rw [List.find?_map]
  have hpred : ((fun v : User => v.id == i) ∘ fun v => if v.id == u.id then u else v)
      = fun v : User => v.id == i := by
    funext v
    by_cases hv : v.id = u.id
    · have hvi : (v.id == i) = false := by simp [hv, h]
      have hui : (u.id == i) = false := by simp [h]
      simp [hv, hvi, hui]
    · simp [hv]
  rw [hpred]
  cases hfind : l.find? (fun v => v.id == i) with
  | none => rfl
  | some w =>
    have hw : w.id = i := by simpa using List.find?_some hfind
    have : (w.id == u.id) = false := by
      simp only [beq_eq_false_iff_ne, ne_eq]
      exact fun hc => h (hc ▸ hw)
    simp [Option.map, this]

lemma findById_saveUser_same {db : DB} {u : User} {i : String} (h : u.id = i) :
    findById (saveUser db u) i = (findById db i).map (fun _ => u) :=
  find?_update_same db.users u i h

lemma findById_saveUser_other {db : DB} {u : User} {i : String} (h : u.id ≠ i) :
    findById (saveUser db u) i = findById db i :=
  find?_update_other db.users u i h

lemma findById_spec {db : DB} {i : String} {u : User} (h : findById db i = some u) :
    u ∈ db.users ∧ u.id = i := by
  refine ⟨List.mem_of_find?_eq_some h, ?_⟩
  have := List.find?_some h
  simpa using this

lemma findRecipient_spec {db : DB} {num nm : String} {u : User}
    (h : findRecipient db num nm = some u) :
    u ∈ db.users ∧ u.accountNumber = some num ∧ u.name = nm := by
  refine ⟨List.mem_of_find?_eq_some h, ?_⟩
  have := List.find?_some h
  simpa using this

lemma lastTxnFor_saveUser (db : DB) (u : User) (uid : String) :
    lastTxnFor (saveUser db u) uid = lastTxnFor db uid := rfl

lemma lastTxnFor_saveTransaction (db : DB) (t : Transaction) (uid : String) :
    lastTxnFor (saveTransaction db t) uid =
      if t.userId = uid then some { t with date := db.now } else lastTxnFor db uid := by
  unfold lastTxnFor saveTransaction
  rw [List.filter_append]
  by_cases h : t.userId = uid
  · have h1 : (({ t with date := db.now } : Transaction).userId == uid) = true := by
      simp [h]
    simp [h1, h]
  · have h1 : (({ t with date := db.now } : Transaction).userId == uid) = false := by
      simp [h]
    simp [h1, h]

lemma findById_saveTransaction (db : DB) (t : Transaction) (i : String) :
    findById (saveTransaction db t) i = findById db i := rfl

lemma saveUser_now (db : DB) (u : User) : (saveUser db u).now = db.now := rfl

lemma saveUser_transactions (db : DB) (u : User) :
    (saveUser db u).transactions = db.transactions := rfl

lemma saveTransaction_users (db : DB) (t : Transaction) :
    (saveTransaction db t).users = db.users := rfl

/-! ### Concrete fixtures used to instantiate the theorems -/

/-- A concrete stored account. -/
def alice : User :=
  { id := "u1", name := "A", email := "a@x", password := "h1",
    accountNumber := some "1234567890", balance := 3, transactions := [] }

/-- A second concrete stored account. -/
def bob : User :=
  { id := "u2", name := "B", email := "b@x", password := "h2",
    accountNumber := some "4567890123", balance := 10, transactions := [] }

/-- A one-account database. -/
def dbA : DB := { users := [alice], transactions := [], now := 0 }

/-- A two-account database. -/
def dbAB : DB := { users := [alice, bob], transactions := [], now := 0 }

/-! ### Claim theorems -/

/-- C4: a withdrawal of more than the current balance fails with the
insufficient-funds error, leaves the account's balance unchanged, and
appends no transaction record (the state comes back untouched). -/
theorem C4_insufficient_withdraw (db : DB) (uid : String) (u : User) (amount : ℚ)
    (h1 : findById db uid = some u) (h2 : u.balance < amount) :
    postTransaction db uid "withdraw" amount = (Except.error "Insufficient balance", db) := by
  simp only [postTransaction, h1]
  rw [if_pos ⟨trivial, h2⟩]

/-- C4 witness: withdrawing 5 from a stored balance of 3 fails and
leaves the state unchanged. -/
theorem C4_insufficient_withdraw_witness :
    postTransaction dbA "u1" "withdraw" 5 = (Except.error "Insufficient balance", dbA) :=
  C4_insufficient_withdraw dbA "u1" alice 5 (by decide) (by norm_num [alice])

/-- C7: a transfer whose sender id resolves to no account, or whose
recipient lookup (conjunction of account number and display name)
matches no account, fails with the invalid-counterparty error and
returns the state untouched. -/
theorem C7_invalid_counterparty (db : DB) (senderId num nm : String) (amount : ℚ)
    (h : findById db senderId = none ∨
         ∀ v ∈ db.users, ¬(v.accountNumber = some num ∧ v.name = nm)) :
    postTransfer db senderId num nm amount = (Except.error "Invalid sender or recipient", db) := by
  rcases h with h | h
  · simp only [postTransfer, h]
  · have hr : findRecipient db num nm = none := by
      apply List.find?_eq_none.mpr
      intro v hv
      have := h v hv
      simp only [Bool.and_eq_true, beq_iff_eq, not_and] at this ⊢
      intro hacc
      exact fun hnm => this hacc hnm
    cases hs : findById db senderId with
    | none => simp only [postTransfer, hs]
    | some s => simp only [postTransfer, hs, hr]

/-- C7 witness: a transfer from an unknown sender id fails with the
invalid-counterparty error and leaves the state unchanged. -/
theorem C7_invalid_counterparty_witness :
    postTransfer dbA "zz" "1234567890" "A" 1 = (Except.error "Invalid sender or recipient", dbA) :=
  C7_invalid_counterparty dbA "zz" "1234567890" "A" 1 (Or.inl (by decide))

/-- C9: for every value of `Math.random()` in `[0,1)`, the generated
account number lies between 1000000000 and 9999999999; the handler
stores exactly that number (as a string) on the looked-up account,
changing no other field, and returns it. -/
theorem C9_generate_account (db : DB) (uid : String) (u : User) (r : ℚ)
    (hu : findById db uid = some u) (h0 : 0 ≤ r) (h1 : r < 1) :
    1000000000 ≤ generatedNumber r ∧ generatedNumber r ≤ 9999999999 ∧
    postGenerateAccount r db uid =
      (Except.ok (toString (generatedNumber r)),
       saveUser db { u with accountNumber := some (toString (generatedNumber r)) }) ∧
    findById (postGenerateAccount r db uid).2 uid =
      some { u with accountNumber := some (toString (generatedNumber r)) } := by
  have hfl0 : (0 : ℤ) ≤ ⌊r * 9000000000⌋ := Int.floor_nonneg.mpr (by positivity)
  have hfl1 : ⌊r * 9000000000⌋ < 9000000000 := by
    rw [Int.floor_lt]
    push_cast
    nlinarith
  refine ⟨?_, ?_, ?_, ?_⟩
  · unfold generatedNumber; omega
  · unfold generatedNumber; omega
  · simp only [postGenerateAccount, hu]
  · have hid : ({ u with accountNumber := some (toString (generatedNumber r)) } : User).id = uid :=
      (findById_spec hu).2
    simp only [postGenerateAccount, hu]
    rw [findById_saveUser_same hid, hu]
    rfl

/-- C9 witness: with `Math.random()` returning 0, the generated number
is exactly 1000000000 and it is stored and returned. -/
theorem C9_generate_account_witness :
    1000000000 ≤ generatedNumber 0 ∧ generatedNumber 0 ≤ 9999999999 ∧
    postGenerateAccount 0 dbA "u1" =
      (Except.ok (toString (generatedNumber 0)),
       saveUser dbA { alice with accountNumber := some (toString (generatedNumber 0)) }) ∧
    findById (postGenerateAccount 0 dbA "u1").2 "u1" =
      some { alice with accountNumber := some (toString (generatedNumber 0)) } :=
  C9_generate_account dbA "u1" alice 0 (by decide) (by norm_num) (by norm_num)

/-- C10: listing an account's transactions yields exactly the ledger
records owned by that account (a permutation of the filtered ledger),
in non-increasing timestamp order, and returns the state unchanged. -/
theorem C10_list_transactions (db : DB) (uid : String) :
    (getTransactions db uid).1.Perm (db.transactions.filter (fun t => t.userId == uid)) ∧
    List.Sorted dateGe (getTransactions db uid).1 ∧
    (getTransactions db uid).2 = db :=
  ⟨List.perm_insertionSort dateGe _, List.sorted_insertionSort dateGe _, rfl⟩

/-- C6: the transaction handler performs no positivity validation on
the amount.  A deposit of any amount (negative included) succeeds,
setting the balance to `balance + amount` (strictly below the old
balance when the amount is negative) and appending a deposit record
carrying that amount and the post-mutation balance; a withdrawal of a
negative amount from a nonnegative balance also succeeds and strictly
increases the balance. -/
theorem C6_no_positivity_validation (db : DB) (uid : String) (u : User) (amount : ℚ)
    (h1 : findById db uid = some u) :
    (postTransaction db uid "deposit" amount =
      (Except.ok ({ u with balance := u.balance + amount },
          { userId := uid, type := "deposit", amount := amount,
            balance := u.balance + amount, recipientId := none, recipientName := none,
            senderId := none, senderName := none, date := db.now }),
        saveTransaction (saveUser db { u with balance := u.balance + amount })
          { userId := uid, type := "deposit", amount := amount,
            balance := u.balance + amount, recipientId := none, recipientName := none,
            senderId := none, senderName := none, date := db.now })) ∧
    (amount < 0 → u.balance + amount < u.balance) ∧
    (amount < 0 → 0 ≤ u.balance →
      postTransaction db uid "withdraw" amount =
        (Except.ok ({ u with balance := u.balance - amount },
            { userId := uid, type := "withdraw", amount := amount,
              balance := u.balance - amount, recipientId := none, recipientName := none,
              senderId := none, senderName := none, date := db.now }),
          saveTransaction (saveUser db { u with balance := u.balance - amount })
            { userId := uid, type := "withdraw", amount := amount,
              balance := u.balance - amount, recipientId := none, recipientName := none,
              senderId := none, senderName := none, date := db.now }) ∧
      u.balance < u.balance - amount) := by
  refine ⟨?_, fun hneg => by linarith, fun hneg hnn => ⟨?_, by linarith⟩⟩
  · simp [postTransaction, h1, saveUser_now]
  · have hle : ¬ u.balance < amount := not_lt.mpr (le_trans (le_of_lt hneg) hnn)
    simp [postTransaction, h1, hle, sub_eq_add_neg, saveUser_now]

/-- C6 witness: a deposit of −5 on a balance of 3 succeeds and lands at
−2, and a withdrawal of −1 from the same account succeeds and raises
the balance to 4. -/
theorem C6_no_positivity_validation_witness :
    (postTransaction dbA "u1" "deposit" (-5) =
      (Except.ok ({ alice with balance := alice.balance + (-5) },
          { userId := "u1", type := "deposit", amount := -5,
            balance := alice.balance + (-5), recipientId := none, recipientName := none,
            senderId := none, senderName := none, date := dbA.now }),
        saveTransaction (saveUser dbA { alice with balance := alice.balance + (-5) })
          { userId := "u1", type := "deposit", amount := -5,
            balance := alice.balance + (-5), recipientId := none, recipientName := none,
            senderId := none, senderName := none, date := dbA.now })) ∧
    (-5 : ℚ) < 0 ∧
    (0 : ℚ) ≤ alice.balance ∧
    alice.balance < alice.balance - (-5) :=
  have h := C6_no_positivity_validation dbA "u1" alice (-5) (by decide)
  ⟨h.1, by norm_num, by norm_num [alice],
    (h.2.2 (by norm_num) (by norm_num [alice])).2⟩

/-- C8: signing up with an email that is already stored fails with the
conflict error and leaves the whole state (in particular the existing
account) unchanged; signing up with a fresh email appends exactly one
account whose credential is the bcrypt hash of the password (never the
plaintext), whose balance is 0 and whose embedded history is empty, and
the response carries only a fixed message, not the credential. -/
theorem C8_signup (hashF : String → String) (newId : String) (db : DB)
    (name email pw : String) :
    (∀ u, findByEmail db email = some u →
        postSignup hashF newId db name email pw =
          (Except.error "Email already registered", db)) ∧
    (findByEmail db email = none →
        postSignup hashF newId db name email pw =
          (Except.ok "User created successfully",
           { db with users := db.users ++
              [{ id := newId, name := name, email := email, password := hashF pw,
                 accountNumber := none, balance := 0, transactions := [] }] })) := by
  constructor
  · intro u hu
    simp only [postSignup, hu]
  · intro hn
    simp only [postSignup, hn]

/-- C8 witness: re-registering the stored email fails with the conflict
error and changes nothing, and registering a fresh email appends the
hashed-credential account with balance 0 and empty history. -/
theorem C8_signup_witness :
    postSignup (fun s => "hash:" ++ s) "u9" dbA "Z" "a@x" "pw" =
      (Except.error "Email already registered", dbA) ∧
    postSignup (fun s => "hash:" ++ s) "u9" dbA "Z" "z@x" "pw" =
      (Except.ok "User created successfully",
       { dbA with users := dbA.users ++
          [{ id := "u9", name := "Z", email := "z@x", password := "hash:" ++ "pw",
             accountNumber := none, balance := 0, transactions := [] }] }) :=
  ⟨(C8_signup (fun s => "hash:" ++ s) "u9" dbA "Z" "a@x" "pw").1 alice (by decide),
   (C8_signup (fun s => "hash:" ++ s) "u9" dbA "Z" "z@x" "pw").2 (by decide)⟩

/-- C2: a transfer between two distinct accounts with sufficient sender
funds succeeds: the sender's stored balance drops by exactly the
amount, the recipient's stored balance rises by exactly the amount, and
exactly two new ledger records are appended — a `transfer_sent` record
for the sender carrying the post-mutation sender balance, then a
`transfer_received` record for the recipient carrying the post-mutation
recipient balance; and every failing transfer returns the state
untouched, appending nothing. -/
theorem C2_transfer (db : DB) (senderId num nm : String) (amount : ℚ) (A B : User)
    (h1 : findById db senderId = some A)
    (h2 : findRecipient db num nm = some B)
    (h3 : A.id ≠ B.id)
    (h4 : amount ≤ A.balance) :
    (postTransfer db senderId num nm amount).1 =
        Except.ok ({ A with balance := A.balance - amount },
          { userId := A.id, type := "transfer_sent", amount := amount,
            balance := A.balance - amount, recipientId := some B.id,
            recipientName := some B.name, senderId := none, senderName := none,
            date := db.now }) ∧
    findById (postTransfer db senderId num nm amount).2 A.id =
        some { A with balance := A.balance - amount } ∧
    findById (postTransfer db senderId num nm amount).2 B.id =
        some { B with balance := B.balance + amount } ∧
    (postTransfer db senderId num nm amount).2.transactions =
        db.transactions ++
          [{ userId := A.id, type := "transfer_sent", amount := amount,
             balance := A.balance - amount, recipientId := some B.id,
             recipientName := some B.name, senderId := none, senderName := none,
             date := db.now },
           { userId := B.id, type := "transfer_received", amount := amount,
             balance := B.balance + amount, recipientId := none, recipientName := none,
             senderId := some A.id, senderName := some A.name, date := db.now + 1 }] ∧
    (∀ (sid n2 m2 : String) (amt : ℚ) (e : String),
      (postTransfer db sid n2 m2 amt).1 = Except.error e →
      (postTransfer db sid n2 m2 amt).2 = db) := by
  have hA := findById_spec h1
  have hB := findRecipient_spec h2
  have hnl : ¬ A.balance < amount := not_lt.mpr h4
  have hBA : ({ B with balance := B.balance + amount } : User).id ≠ A.id := Ne.symm h3
  have hAB : ({ A with balance := A.balance - amount } : User).id ≠ B.id := h3
  refine ⟨?_, ?_, ?_, ?_, ?_⟩
  · simp only [postTransfer, h1, h2]
    rw [if_neg hnl]
    simp [saveUser_now]
  · simp only [postTransfer, h1, h2]
    rw [if_neg hnl]
    simp only [findById_saveTransaction]
    rw [findById_saveUser_other hBA, findById_saveUser_same rfl, hA.2, h1]
    rfl
  · simp only [postTransfer, h1, h2]
    rw [if_neg hnl]
    simp only [findById_saveTransaction]
    rw [findById_saveUser_same rfl, findById_saveUser_other hAB]
    have hsome : (findById db B.id).isSome := by
      unfold findById
      rw [List.find?_isSome]
      exact ⟨B, hB.1, by simp⟩
    obtain ⟨w, hw⟩ := Option.isSome_iff_exists.mp hsome
    rw [hw]
    rfl
  · simp only [postTransfer, h1, h2]
    rw [if_neg hnl]
    simp [saveTransaction, saveUser_transactions, saveUser_now]
  · intro sid n2 m2 amt e hE
    cases hs : findById db sid with
    | none => simp [postTransfer, hs]
    | some s =>
      cases hr : findRecipient db n2 m2 with
      | none => simp [postTransfer, hs, hr]
      | some rcp =>
        by_cases hb : s.balance < amt
        · simp [postTransfer, hs, hr, hb]
        · exfalso
          simp only [postTransfer, hs, hr] at hE
          rw [if_neg hb] at hE
          exact Except.noConfusion hE

/-- C2 witness: transferring 2 from the balance-3 account to the
balance-10 account leaves the recipient's stored document at
balance 12. -/
theorem C2_transfer_witness :
    findById (postTransfer dbAB "u1" "4567890123" "B" 2).2 bob.id =
      some { bob with balance := bob.balance + 2 } :=
  (C2_transfer dbAB "u1" "4567890123" "B" 2 alice bob
    (by decide) (by decide) (by decide) (by norm_num [alice])).2.2.1

/-- C5: a transfer whose recipient lookup resolves to the sender's own
account succeeds, and because the recipient copy of the document is
saved after the sender copy, the debit is overwritten: the account's
final stored balance is its old balance plus the amount, while both a
`transfer_sent` and a `transfer_received` record are appended for it. -/
theorem C5_self_transfer (db : DB) (senderId num nm : String) (amount : ℚ) (A : User)
    (h1 : findById db senderId = some A)
    (h2 : findRecipient db num nm = some A)
    (h4 : amount ≤ A.balance) :
    (postTransfer db senderId num nm amount).1 =
        Except.ok ({ A with balance := A.balance - amount },
          { userId := A.id, type := "transfer_sent", amount := amount,
            balance := A.balance - amount, recipientId := some A.id,
            recipientName := some A.name, senderId := none, senderName := none,
            date := db.now }) ∧
    findById (postTransfer db senderId num nm amount).2 A.id =
        some { A with balance := A.balance + amount } ∧
    (postTransfer db senderId num nm amount).2.transactions =
        db.transactions ++
          [{ userId := A.id, type := "transfer_sent", amount := amount,
             balance := A.balance - amount, recipientId := some A.id,
             recipientName := some A.name, senderId := none, senderName := none,
             date := db.now },
           { userId := A.id, type := "transfer_received", amount := amount,
             balance := A.balance + amount, recipientId := none, recipientName := none,
             senderId := some A.id, senderName := some A.name, date := db.now + 1 }] := by
  have hA := findById_spec h1
  have hnl : ¬ A.balance < amount := not_lt.mpr h4
  refine ⟨?_, ?_, ?_⟩
  · simp only [postTransfer, h1, h2]
    rw [if_neg hnl]
    simp [saveUser_now]
  · simp only [postTransfer, h1, h2]
    rw [if_neg hnl]
    simp only [findById_saveTransaction]
    rw [findById_saveUser_same rfl, findById_saveUser_same rfl, hA.2, h1]
    rfl
  · simp only [postTransfer, h1, h2]
    rw [if_neg hnl]
    simp [saveTransaction, saveUser_transactions, saveUser_now]

/-- C5 witness: a self-transfer of 2 on the balance-3 account ends with
its stored balance at 5, not 3. -/
theorem C5_self_transfer_witness :
    findById (postTransfer dbA "u1" "1234567890" "A" 2).2 alice.id =
      some { alice with balance := alice.balance + 2 } :=
  (C5_self_transfer dbA "u1" "1234567890" "A" 2 alice
    (by decide) (by decide) (by norm_num [alice])).2.1

/-- C1 counterexample: starting from a state in which every balance is
nonnegative (one account at balance 3), a deposit of -5 — which the
handler accepts, performing no positivity validation — ends in a state
with a negative stored balance, so the claimed invariant fails as
stated. -/
theorem C1_counterexample :
    nonnegBalances dbA ∧ ¬ nonnegBalances (postTransaction dbA "u1" "deposit" (-5)).2 := by
  constructor
  · decide
  · intro hcon
    have h1 : findById dbA "u1" = some alice := by decide
    have hmem : ({ alice with balance := alice.balance + (-5) } : User) ∈
        (postTransaction dbA "u1" "deposit" (-5)).2.users := by
      simp only [postTransaction, h1]
      rw [if_neg (fun hcc => absurd hcc.1 (by decide))]
      rw [saveTransaction_users]
      rw [if_pos trivial]
      simp [saveUser, dbA]
    have hneg := hcon _ hmem
    norm_num [alice] at hneg

/-- C1 amended: provided every amount supplied to a balance-changing
operation is positive, each core operation (register, account-number
assignment, deposit/withdraw, transfer) started from a state with all
balances ≥ 0 ends in a state with all balances ≥ 0. -/
theorem C1_nonneg_invariant (db : DB) (h : nonnegBalances db) :
    (∀ hashF newId name email pw,
        nonnegBalances (postSignup hashF newId db name email pw).2) ∧
    (∀ r uid, nonnegBalances (postGenerateAccount r db uid).2) ∧
    (∀ uid ty amount, ty = "deposit" ∨ ty = "withdraw" → 0 < amount →
        nonnegBalances (postTransaction db uid ty amount).2) ∧
    (∀ sid num nm amount, 0 < amount →
        nonnegBalances (postTransfer db sid num nm amount).2) := by
  refine ⟨?_, ?_, ?_, ?_⟩
  · intro hashF newId name email pw
    cases hfe : findByEmail db email with
    | some u => simpa [postSignup, hfe] using h
    | none =>
      simp only [postSignup, hfe]
      intro v hv
      rw [List.mem_append] at hv
      rcases hv with hv | hv
      · exact h v hv
      · simp only [List.mem_singleton] at hv
        subst hv
        norm_num
  · intro r uid
    cases hfind : findById db uid with
    | none => simpa [postGenerateAccount, hfind] using h
    | some u =>
      simp only [postGenerateAccount, hfind]
      intro v hv
      rcases mem_saveUser hv with rfl | ⟨hv2, _⟩
      · exact h u (findById_spec hfind).1
      · exact h v hv2
  · intro uid ty amount hty hpos
    cases hfind : findById db uid with
    | none => simpa [postTransaction, hfind] using h
    | some u =>
      have hu := (findById_spec hfind).1
      rcases hty with rfl | rfl
      · simp only [postTransaction, hfind]
        rw [if_neg (fun hcc => absurd hcc.1 (by decide))]
        intro v hv
        rw [saveTransaction_users] at hv
        rcases mem_saveUser hv with rfl | ⟨hv2, _⟩
        · have hb : (0 : ℚ) ≤ u.balance + amount := add_nonneg (h u hu) (le_of_lt hpos)
          simpa using hb
        · exact h v hv2
      · by_cases hc : u.balance < amount
        · simp only [postTransaction, hfind]
          rw [if_pos ⟨trivial, hc⟩]
          exact h
        · simp only [postTransaction, hfind]
          rw [if_neg (fun hcc => hc hcc.2)]
          intro v hv
          rw [saveTransaction_users] at hv
          rcases mem_saveUser hv with rfl | ⟨hv2, _⟩
          · have hb : (0 : ℚ) ≤ u.balance + -amount := by
              have := not_lt.mp hc
              linarith
            simpa using hb
          · exact h v hv2
  · intro sid num nm amount hpos
    cases hs : findById db sid with
    | none => simpa [postTransfer, hs] using h
    | some s =>
      cases hr : findRecipient db num nm with
      | none => simpa [postTransfer, hs, hr] using h
      | some rcp =>
        have hsmem := (findById_spec hs).1
        have hrmem := (findRecipient_spec hr).1
        by_cases hb : s.balance < amount
        · simp only [postTransfer, hs, hr]
          rw [if_pos hb]
          exact h
        · simp only [postTransfer, hs, hr]
          rw [if_neg hb]
          intro v hv
          rw [saveTransaction_users, saveTransaction_users] at hv
          rcases mem_saveUser hv with rfl | ⟨hv2, _⟩
          · have hok : (0 : ℚ) ≤ rcp.balance + amount :=
              add_nonneg (h rcp hrmem) (le_of_lt hpos)
            simpa using hok
          · rcases mem_saveUser hv2 with rfl | ⟨hv3, _⟩
            · have hok : (0 : ℚ) ≤ s.balance - amount := by
                have := not_lt.mp hb
                linarith
              simpa using hok
            · exact h v hv3

/-- C1 amended witness: a deposit of 5 on the all-nonnegative one-user
state keeps every balance nonnegative. -/
theorem C1_nonneg_invariant_witness :
    nonnegBalances (postTransaction dbA "u1" "deposit" 5).2 :=
  (C1_nonneg_invariant dbA (by decide)).2.2.1 "u1" "deposit" 5 (Or.inl rfl) (by norm_num)

/-- C3: every operation preserves the invariant that each account's
stored balance equals the `balance` field of its most recently written
ledger record (when it has one): sign-up with a fresh id gives the new
account no record, account-number assignment touches neither balance
nor ledger, and deposits, withdrawals and transfers stamp each mutated
account's post-mutation balance on the record written last for it —
including a self-transfer, where the `transfer_received` record written
second carries the balance that the second save leaves stored. -/
theorem C3_balance_matches_ledger (db : DB) (h : balanceMatchesLedger db) :
    (∀ hashF newId name email pw, lastTxnFor db newId = none →
        balanceMatchesLedger (postSignup hashF newId db name email pw).2) ∧
    (∀ r uid, balanceMatchesLedger (postGenerateAccount r db uid).2) ∧
    (∀ uid ty amount, balanceMatchesLedger (postTransaction db uid ty amount).2) ∧
    (∀ sid num nm amount, balanceMatchesLedger (postTransfer db sid num nm amount).2) := by
  refine ⟨?_, ?_, ?_, ?_⟩
  · intro hashF newId name email pw hfresh
    cases hfe : findByEmail db email with
    | some u => simpa [postSignup, hfe] using h
    | none =>
      simp only [postSignup, hfe]
      intro v hv
      rw [List.mem_append] at hv
      rcases hv with hv | hv
      · exact h v hv
      · rw [List.mem_singleton] at hv
        subst hv
        have hf2 : (lastTxnFor db newId).all (fun t => t.balance == (0 : ℚ)) = true := by
          rw [hfresh]
          rfl
        exact hf2
  · intro r uid
    cases hfind : findById db uid with
    | none => simpa [postGenerateAccount, hfind] using h
    | some u =>
      simp only [postGenerateAccount, hfind]
      intro v hv
      rcases mem_saveUser hv with rfl | ⟨hv2, _⟩
      · exact h u (findById_spec hfind).1
      · exact h v hv2
  · intro uid ty amount
    cases hfind : findById db uid with
    | none => simpa [postTransaction, hfind] using h
    | some u =>
      obtain ⟨humem, huid⟩ := findById_spec hfind
      subst huid
      by_cases hc : ty = "withdraw" ∧ u.balance < amount
      · simp only [postTransaction, hfind]
        rw [if_pos hc]
        exact h
      · simp only [postTransaction, hfind]
        rw [if_neg hc]
        intro v hv
        rw [saveTransaction_users] at hv
        rcases mem_saveUser hv with rfl | ⟨hv2, hvne⟩
        · simp [matchesLast, lastTxnFor_saveTransaction]
        · have hvne2 : ¬ (u.id = v.id) := fun hh => hvne hh.symm
          simpa [matchesLast, lastTxnFor_saveTransaction, lastTxnFor_saveUser, hvne2]
            using h v hv2
  · intro sid num nm amount
    cases hs : findById db sid with
    | none => simpa [postTransfer, hs] using h
    | some s =>
      cases hr : findRecipient db num nm with
      | none => simpa [postTransfer, hs, hr] using h
      | some rcp =>
        by_cases hb : s.balance < amount
        · simp only [postTransfer, hs, hr]
          rw [if_pos hb]
          exact h
        · simp only [postTransfer, hs, hr]
          rw [if_neg hb]
          intro v hv
          rw [saveTransaction_users, saveTransaction_users] at hv
          rcases mem_saveUser hv with rfl | ⟨hv2, hvne⟩
          · simp [matchesLast, lastTxnFor_saveTransaction]
          · rcases mem_saveUser hv2 with rfl | ⟨hv3, hvne2⟩
            · have hvneR : ¬ (rcp.id = s.id) := fun hh => hvne hh.symm
              simp [matchesLast, lastTxnFor_saveTransaction, hvneR]
            · have h1R : ¬ (rcp.id = v.id) := fun hh => hvne hh.symm
              have h2S : ¬ (s.id = v.id) := fun hh => hvne2 hh.symm
              simpa [matchesLast, lastTxnFor_saveTransaction, lastTxnFor_saveUser, h1R, h2S]
                using h v hv3

/-- C3 witness: after a deposit of 5 on the one-user state the stored
balance still equals the newest ledger record's balance snapshot. -/
theorem C3_balance_matches_ledger_witness :
    balanceMatchesLedger (postTransaction dbA "u1" "deposit" 5).2 :=
  (C3_balance_matches_ledger dbA (by decide)).2.2.1 "u1" "deposit" 5

end Bank
